import Mathlib

/-!
Shallow embedding of `github-bulk-delete` (`src/main.py`): the selection
parser `parse_indices`, the paginated GitHub client (`get_repositories`,
`delete_repository`), the confirmation check `confirm_deletion`, the
workflow `main`, and the interrupt wrapper `run`.  Python strings are
modelled by their character sequences (`List Char`), Python integers by
`Int`; exceptions and `None` returns are modelled with `Option` and
explicit outcome types.  The Python string primitives used by the source
(`str.split` with a one-character separator, `str.strip`, `in`) are given
executable models below so that every definition evaluates inside the
kernel.
-/

/-- Models Python `s.split(sep)` for a one-character separator `sep`
(as used with `","` and `"-"` in `parse_indices`): splits on every
occurrence of the separator, keeping empty pieces, so that
`"".split(",") == [""]` and `"a,,b".split(",") == ["a", "", "b"]`. -/
def splitChar (sep : Char) : List Char → List (List Char)
  | [] => [[]]
  | c :: cs =>
    match splitChar sep cs with
    | [] => if c = sep then [[], [c]] else [[c]]
    | g :: gs => if c = sep then [] :: g :: gs else (c :: g) :: gs

/-- Models Python `s.strip()` on ASCII input: drops whitespace from both
ends.  (Python strips a slightly larger Unicode whitespace class; every
input in the repository and its tests is ASCII.) -/
def stripChars (s : List Char) : List Char :=
  ((s.dropWhile Char.isWhitespace).reverse.dropWhile Char.isWhitespace).reverse

/-- Models CPython `int(s)` on ASCII decimal input: surrounding whitespace
stripped, one optional sign, then a non-empty run of decimal digits;
anything else raises `ValueError`, modelled as `none`.  (Digit-group
underscores and non-ASCII digits, which CPython also accepts, are outside
the model; no input in the repository or its tests uses them.) -/
def pyInt (s : List Char) : Option Int :=
  match stripChars s with
  | [] => none
  | c :: cs =>
    let signDigits :=
      if c = '-' then ((-1 : Int), cs)
      else if c = '+' then ((1 : Int), cs)
      else ((1 : Int), c :: cs)
    if signDigits.2 ≠ [] ∧ signDigits.2.all Char.isDigit then
      some (signDigits.1 *
        Int.ofNat (signDigits.2.foldl (fun a d => a * 10 + (d.toNat - 48)) 0))
    else none

/-- Models Python `range(start, end + 1)` as used in `parse_indices`
(`main.py` line 102): the integers from `start` to `stop` inclusive in
ascending order; empty when `stop < start`. -/
def intRange (start stop : Int) : List Int :=
  (List.range (stop + 1 - start).toNat).map (fun (k : Nat) => start + (k : Int))

/-- One iteration of the segment loop of `parse_indices` (`main.py` lines
94-105): the raw (1-based) values a comma-separated segment contributes.
A stripped-empty segment contributes nothing; a segment containing a
hyphen must split into exactly two integer halves (`start_str, end_str =
part.split("-")` raises `ValueError` for any other arity) and contributes
the inclusive range; otherwise the segment must itself parse as one
integer.  `none` models the `ValueError` caught at line 106. -/
def parseSegment (part : List Char) : Option (List Int) :=
  let p := stripChars part
  if p = [] then some []
  else if p.contains '-' then
    match splitChar '-' p with
    | [startStr, endStr] =>
      match pyInt startStr, pyInt endStr with
      | some start, some stop => some (intRange start stop)
      | _, _ => none
    | _ => none
  else
    (pyInt p).map (fun v => [v])

/-- The whole segment loop of `parse_indices`: concatenates the values of
every segment, failing as a whole if any segment fails (the Python
`try` block spans the entire loop). -/
def collectSegments : List (List Char) → Option (List Int)
  | [] => some []
  | part :: rest =>
    match parseSegment part, collectSegments rest with
    | some vs, some tailVs => some (vs ++ tailVs)
    | _, _ => none

/-- Models `sorted(list(set(xs)))` (`main.py` line 112): duplicates
removed, result in ascending order. -/
def sortedSet (xs : List Nat) : List Nat :=
  List.insertionSort (· ≤ ·) xs.dedup

/-- Function `parse_indices` (`main.py` lines 84-112): split the input on commas,
parse every segment (all-or-nothing), keep raw values in the 1-based
window `[1, repos_count]`, convert to 0-based, deduplicate and sort.
`none` models the `return None` on `ValueError`. -/
def parse_indices (input_str : String) (repos_count : Nat) : Option (List Nat) :=
  match collectSegments (splitChar ',' input_str.data) with
  | none => none
  | some indices =>
    some (sortedSet ((indices.filter
        (fun i => decide (1 ≤ i) && decide (i ≤ (repos_count : Int)))).map
        (fun i => (i - 1).toNat)))

/-- A repository record as used by the workflow: the `name`, `owner.login`
and `private` fields of a GitHub API repository object.  (`private` is a
Lean keyword, so that field is called `priv`.) -/
structure Repo where
  name : String
  owner : String
  priv : Bool
deriving DecidableEq

/-- The JSON body of an HTTP response, as far as `main.py` inspects it:
a JSON array of repository objects, a JSON object with an optional
`message` field, or a body that is not parseable JSON (Python
`response.json()` raising `ValueError`). -/
inductive JsonBody where
  | arr (items : List Repo)
  | obj (message : Option String)
  | notJson
deriving DecidableEq

/-- An HTTP response: status code and body. -/
structure HttpResponse where
  status : Nat
  body : JsonBody
deriving DecidableEq

/-- What one HTTP request can yield: a response, or a transport-level
failure (`requests.RequestException`, e.g. connection refused or timeout)
carrying its description. -/
inductive TransportResult where
  | resp (r : HttpResponse)
  | exn (desc : String)
deriving DecidableEq

/-- The HTTP method of a request issued through the session. -/
inductive Method where
  | get
  | del
deriving DecidableEq

/-- Constant `GITHUB_API_BASE` (`main.py` line 12). -/
def GITHUB_API_BASE : String := "https://api.github.com"

/-- The URL requested for one listing page (`main.py` line 43):
`per_page` is fixed at 100, so each page holds up to 100 items. -/
def repoPageUrl (page : Nat) : String :=
  GITHUB_API_BASE ++ "/user/repos?page=" ++ toString page ++ "&per_page=100"

/-- The URL a deletion is issued to (`main.py` line 71). -/
def deleteUrl (owner repo_name : String) : String :=
  GITHUB_API_BASE ++ "/repos/" ++ owner ++ "/" ++ repo_name

/-- The error text built at `main.py` lines 47-52 for a non-200 listing
response: always the status code; the JSON `message` field is appended
when the body is a JSON object that has one (a JSON array has no
`message`, and an unparseable body is ignored). -/
def fetchErrorMsg (r : HttpResponse) : String :=
  let base := "Error fetching repositories: " ++ toString r.status
  match r.body with
  | .obj (some m) => base ++ " - " ++ m
  | _ => base

/-- Result of `get_repositories`: the accumulated repository list, a
`GitHubError` message, fuel exhaustion (the Python loop is unbounded, so
the embedding bounds it with fuel; theorems supply enough fuel for their
scenarios), or a 200 response whose JSON body is not an array — a case
outside the behaviour `main.py` is written for (it would crash or
misbehave on the raw Python objects) and outside every claim. -/
inductive FetchOutcome where
  | ok (repos : List Repo)
  | githubError (msg : String)
  | fuelOut
  | illTyped
deriving DecidableEq

/-- The `while True` loop of `GitHubClient.get_repositories` (`main.py`
lines 42-65), one fuel unit per page request.  `transport` models the
session: what each HTTP request returns.  Returns the outcome together
with the list of URLs requested, in request order (the request log is
extra observability for the theorems; the Python code has no such list).
A transport failure becomes `GitHubError("Connection error: ...")`
(line 65); a non-200 status becomes `GitHubError(fetchErrorMsg)` (lines
46-56); an empty page stops the loop returning the accumulated repos
(lines 59-60); a non-empty page is appended and the page number
incremented (lines 62-63). -/
def getRepositoriesAux (transport : Method → String → TransportResult) :
    Nat → Nat → List Repo → List String → FetchOutcome × List String
  | 0, _, _, log => (.fuelOut, log)
  | fuel + 1, page, acc, log =>
    let url := repoPageUrl page
    let log2 := log ++ [url]
    match transport .get url with
    | .exn e => (.githubError ("Connection error: " ++ e), log2)
    | .resp r =>
      if r.status ≠ 200 then (.githubError (fetchErrorMsg r), log2)
      else
        match r.body with
        | .arr [] => (.ok acc, log2)
        | .arr (item :: items) =>
          getRepositoriesAux transport fuel (page + 1) (acc ++ item :: items) log2
        | _ => (.illTyped, log2)

/-- Function `GitHubClient.get_repositories` (`main.py` lines 36-67): start at
page 1 with an empty accumulator. -/
def get_repositories (transport : Method → String → TransportResult)
    (fuel : Nat) : FetchOutcome × List String :=
  getRepositoriesAux transport fuel 1 [] []

/-- Function `GitHubClient.delete_repository` (`main.py` lines 69-76): true exactly
when the response status is 204; false on any other status and on any
transport failure; total — no exception reaches the caller. -/
def delete_repository (transport : Method → String → TransportResult)
    (owner repo_name : String) : Bool :=
  match transport .del (deleteUrl owner repo_name) with
  | .resp r => r.status == 204
  | .exn _ => false

/-- The decision of `confirm_deletion` (`main.py` lines 148-158): the
input with surrounding whitespace stripped must equal the literal
case-sensitive token `DELETE`. -/
def confirm_deletion (confirm : String) : Bool :=
  decide (stripChars confirm.data = "DELETE".data)

/-- The final report line (`main.py` lines 225-227). -/
def operationCompletedLine (success_count total : Nat) : String :=
  "\nOperation completed. " ++ toString success_count ++ "/" ++ toString total ++
    " repositories deleted successfully."

/-- How a run of `main` ends (`main.py` lines 161-227), one constructor
per `return` path plus the terminal deletion report.  `fuelOut` and
`illTyped` are the modelling artefacts inherited from `FetchOutcome`. -/
inductive Outcome where
  | tokenMissing
  | fetchFailed (msg : String)
  | noRepositories
  | invalidSelection
  | emptySelection
  | cancelled
  | done (successes total : Nat)
  | fuelOut
  | illTyped
deriving DecidableEq

/-- Placeholder repository for the (unreachable) out-of-range index case
of `repos[i]`; `parse_indices` only returns indices below `len(repos)`. -/
def defaultRepo : Repo := ⟨"", "", false⟩

namespace Workflow

/-- Function `main` (`main.py` lines 161-227) as a function of its inputs: the
token, the session behaviour, the selection and confirmation input lines,
and fuel for the listing loop.  Returns how the run ends together with
the list of `(owner, name)` pairs delete requests are issued for, in
order.  Mirrors the Python control flow: missing token → return; fetch
error → print and return; empty list → return; unparsable selection →
return; empty selection → return; failed confirmation → return; else one
`delete_repository` call per selected repository in selection order,
tallying successes. -/
def main (token : String) (transport : Method → String → TransportResult)
    (selectionInput confirmInput : String) (fuel : Nat) :
    Outcome × List (String × String) :=
  if token = "" then (.tokenMissing, [])
  else
    match get_repositories transport fuel with
    | (.fuelOut, _) => (.fuelOut, [])
    | (.illTyped, _) => (.illTyped, [])
    | (.githubError msg, _) => (.fetchFailed msg, [])
    | (.ok repos, _) =>
      if repos = [] then (.noRepositories, [])
      else
        match parse_indices selectionInput repos.length with
        | none => (.invalidSelection, [])
        | some indices =>
          if indices = [] then (.emptySelection, [])
          else
            let selected := indices.map (fun i => repos.getD i defaultRepo)
            if confirm_deletion confirmInput then
              (.done (selected.filter
                  (fun r => delete_repository transport r.owner r.name)).length
                  selected.length,
               selected.map (fun r => (r.owner, r.name)))
            else (.cancelled, [])

end Workflow

/-- The two ways `main()` can end under the `try` of `run` (`main.py`
lines 230-236): normal return, or a `KeyboardInterrupt` propagating out.
The `try` spans the whole call, so an interrupt at any point inside
`main` reaches this handler. -/
inductive MainResult where
  | completed
  | interrupted
deriving DecidableEq

/-- The message printed by the `except KeyboardInterrupt` handler
(`main.py` line 235). -/
def cancellationMessage : String := "\n\nOperation cancelled by user. Exiting..."

/-- Function `run` (`main.py` lines 230-236) observed as (process exit status,
cancellation message printed): on `KeyboardInterrupt` it prints the
dedicated message and calls `sys.exit(0)`; on normal completion it just
returns, and the interpreter exits with status 0 and no cancellation
message. -/
def run : MainResult → Nat × Option String
  | .completed => (0, none)
  | .interrupted => (0, some cancellationMessage)

/-- Ten example repositories (1-based display positions 1 to 10). -/
def exampleRepos : List Repo :=
  [⟨"r1", "u", false⟩, ⟨"r2", "u", false⟩, ⟨"r3", "u", false⟩,
   ⟨"r4", "u", false⟩, ⟨"r5", "u", false⟩, ⟨"r6", "u", false⟩,
   ⟨"r7", "u", false⟩, ⟨"r8", "u", false⟩, ⟨"r9", "u", false⟩,
   ⟨"r10", "u", true⟩]

/-- A transport serving one non-empty listing page (`exampleRepos`)
followed by empty pages, and answering 204 (no content) to every delete
request. -/
def exampleTransport : Method → String → TransportResult :=
  fun m url =>
    match m with
    | .get =>
      if url = repoPageUrl 1 then .resp ⟨200, .arr exampleRepos⟩
      else .resp ⟨200, .arr []⟩
    | .del => .resp ⟨204, .notJson⟩

/-- A transport whose every listing request fails with 401 and a JSON
`message`, as in the test `test_github_client_get_repositories_error` of the repository. -/
def failingTransport : Method → String → TransportResult :=
  fun _ _ => .resp ⟨401, .obj (some "Bad credentials")⟩

example : parse_indices "1,3,5-8" 10 = some [0, 2, 4, 5, 6, 7] := by decide
example : parse_indices " 1 , 3 , 5-8 " 10 = some [0, 2, 4, 5, 6, 7] := by decide
example : parse_indices "1,1,1" 10 = some [0] := by decide
example : parse_indices "10,1" 10 = some [0, 9] := by decide
example : parse_indices "1-3,2-4" 10 = some [0, 1, 2, 3] := by decide
example : parse_indices "11,12" 10 = some [] := by decide
example : parse_indices "0,1,11" 10 = some [0] := by decide
example : parse_indices "invalid" 10 = none := by decide
example : parse_indices "1,invalid" 10 = none := by decide
example : parse_indices "1-" 10 = none := by decide
example : parse_indices "5-3" 10 = some [] := by decide

theorem mem_sortedSet {a : Nat} {xs : List Nat} : a ∈ sortedSet xs ↔ a ∈ xs := by
  unfold sortedSet
  rw [(List.perm_insertionSort _ xs.dedup).mem_iff, List.mem_dedup]

theorem nodup_sortedSet (xs : List Nat) : (sortedSet xs).Nodup :=
  (List.perm_insertionSort _ xs.dedup).nodup_iff.mpr (List.nodup_dedup xs)

theorem sorted_lt_sortedSet (xs : List Nat) : (sortedSet xs).Sorted (· < ·) :=
  (List.sorted_insertionSort _ xs.dedup).lt_of_le (nodup_sortedSet xs)

theorem parse_indices_shape {s : String} {n : Nat} {l : List Nat}
    (h : parse_indices s n = some l) :
    ∃ xs : List Int, l = sortedSet ((xs.filter
      (fun i => decide (1 ≤ i) && decide (i ≤ (n : Int)))).map
      (fun i => (i - 1).toNat)) := by
  unfold parse_indices at h
  cases hc : collectSegments (splitChar ',' s.data) with
  | none => rw [hc] at h; cases h
  | some vs =>
    rw [hc] at h
    exact ⟨vs, (Option.some.injEq _ _ ▸ h).symm⟩

theorem parse_indices_bound {s : String} {n : Nat} {l : List Nat}
    (h : parse_indices s n = some l) : ∀ i ∈ l, i < n := by
  intro i hi
  obtain ⟨xs, rfl⟩ := parse_indices_shape h
  rw [mem_sortedSet] at hi
  simp only [List.mem_map, List.mem_filter, Bool.and_eq_true, decide_eq_true_eq] at hi
  obtain ⟨j, ⟨_, hj1, hjn⟩, rfl⟩ := hi
  omega

/-- C3:  Whenever `parse_indices` succeeds, the returned 0-based
indices all lie in `[0, repos_count - 1]`, contain no duplicates and are
sorted strictly ascending; out-of-window 1-based values are silently
dropped, so a syntactically valid input whose values all fall outside the
window yields an empty successful result, not an invalid-format failure
(e.g. `parse_indices "11,12" 10`), and partially-in-window input keeps
only the in-window part (`parse_indices "0,1,11" 10`). -/
theorem parse_indices_window_sorted_nodup :
    (∀ (s : String) (n : Nat) (l : List Nat), parse_indices s n = some l →
      l.Sorted (· < ·) ∧ l.Nodup ∧ ∀ i ∈ l, i < n) ∧
    parse_indices "11,12" 10 = some [] ∧ parse_indices "0,1,11" 10 = some [0] := by
  refine ⟨?_, by decide, by decide⟩
  intro s n l h
  obtain ⟨xs, rfl⟩ := parse_indices_shape h
  exact ⟨sorted_lt_sortedSet _, nodup_sortedSet _, parse_indices_bound h⟩

theorem parse_indices_window_sorted_nodup_witness :
    [0, 2].Sorted (· < ·) ∧ [0, 2].Nodup ∧ ∀ i ∈ [0, 2], i < 10 :=
  parse_indices_window_sorted_nodup.1 "1,3" 10 [0, 2] (by decide)

/-- Helper: `collectSegments` fails exactly when some segment fails. -/
theorem collectSegments_eq_none {parts : List (List Char)} :
    collectSegments parts = none ↔ ∃ part ∈ parts, parseSegment part = none := by
  induction parts with
  | nil => simp [collectSegments]
  | cons p ps ih =>
    simp only [collectSegments, List.mem_cons, exists_eq_or_imp, ← ih]
    cases hp : parseSegment p <;> cases hps : collectSegments ps <;> simp_all

/-- C4:  If any comma-separated segment fails integer parsing
(malformed range, dangling hyphen, empty half, non-numeric text, ...)
then `parse_indices` fails as a whole, returning `none` and no partial
selection; in particular on `"invalid"`, `"1,invalid"` and `"1-"`. -/
theorem parse_indices_all_or_nothing :
    (∀ (s : String) (n : Nat),
      (∃ part ∈ splitChar ',' s.data, parseSegment part = none) →
      parse_indices s n = none) ∧
    parse_indices "invalid" 10 = none ∧ parse_indices "1,invalid" 10 = none ∧
    parse_indices "1-" 10 = none := by
  refine ⟨?_, by decide, by decide, by decide⟩
  intro s n h
  unfold parse_indices
  rw [collectSegments_eq_none.mpr h]

theorem parse_indices_all_or_nothing_witness : parse_indices "1-" 10 = none :=
  parse_indices_all_or_nothing.1 "1-" 10 (by decide)

/-- C8:  A hyphenated segment `start-end` contributes every value from
`start` to `end` inclusive of both endpoints, and selected 1-based
positions are converted to 0-based indices:
`parse_indices "1,3,5-8" 10 = [0, 2, 4, 5, 6, 7]`. -/
theorem parse_range_inclusive :
    (∀ start stop k : Int, k ∈ intRange start stop ↔ start ≤ k ∧ k ≤ stop) ∧
    parse_indices "1,3,5-8" 10 = some [0, 2, 4, 5, 6, 7] := by
  refine ⟨?_, by decide⟩
  intro a b k
  unfold intRange
  simp only [List.mem_map, List.mem_range]
  constructor
  · rintro ⟨m, hm, rfl⟩
    omega
  · intro hk
    exact ⟨(k - a).toNat, by omega, by omega⟩

/-- C10:  A range segment whose start exceeds its end is not an error:
it simply contributes no values (Python `range(start, end + 1)` is empty
when `end < start`), so `parse_indices "5-3" 10 = some []`. -/
theorem parse_reversed_range_empty :
    parse_indices "5-3" 10 = some [] ∧
    ∀ start stop : Int, stop < start → intRange start stop = [] := by
  refine ⟨by decide, ?_⟩
  intro a b hba
  unfold intRange
  have h0 : (b + 1 - a).toNat = 0 := by omega
  rw [h0]
  rfl

theorem parse_reversed_range_empty_witness : intRange 5 3 = [] :=
  parse_reversed_range_empty.2 5 3 (by decide)

/-- C7:  `delete_repository` returns true exactly when the transport
yields a response with status 204; any other status and any
transport-level failure give false.  The embedding is a total function
into `Bool`, matching the Python code in which `requests.RequestException`
is caught and no exception escapes to the caller. -/
theorem delete_repository_status_204 :
    ∀ (t : Method → String → TransportResult) (owner repo_name : String),
      delete_repository t owner repo_name = true ↔
        ∃ r, t .del (deleteUrl owner repo_name) = .resp r ∧ r.status = 204 := by
  intro t owner repo_name
  unfold delete_repository
  cases ht : t .del (deleteUrl owner repo_name) with
  | resp r => simp [ht]
  | exn e => simp [ht]

/-- C9:  The interrupt wrapper `run`: a `KeyboardInterrupt` escaping
`main` ends the process with the dedicated cancellation message and exit
status 0; normal completion also exits 0 (with no cancellation message);
every path exits with the success-indicating status 0. -/
theorem run_interrupt_clean_exit :
    run .interrupted = (0, some cancellationMessage) ∧
    run .completed = (0, none) ∧ ∀ m, (run m).1 = 0 := by
  refine ⟨rfl, rfl, ?_⟩
  intro m
  cases m <;> rfl

/-- The listing loop over a transport that serves the non-empty pages of
`pages` in order starting at `page`, followed by an empty page: it
requests exactly `pages.length + 1` consecutive pages and accumulates
their items in order. -/
theorem getRepositoriesAux_servePages :
    ∀ (pages : List (List Repo)) (t : Method → String → TransportResult)
      (fuel page : Nat) (acc : List Repo) (log : List String),
      pages.length + 1 ≤ fuel →
      (∀ k (hk : k < pages.length),
        pages[k] ≠ [] ∧
        t .get (repoPageUrl (page + k)) = .resp ⟨200, .arr pages[k]⟩) →
      t .get (repoPageUrl (page + pages.length)) = .resp ⟨200, .arr []⟩ →
      getRepositoriesAux t fuel page acc log =
        (.ok (acc ++ pages.flatten),
         log ++ (List.range (pages.length + 1)).map (fun k => repoPageUrl (page + k))) := by
  intro pages
  induction pages with
  | nil =>
    intro t fuel page acc log hfuel hgood hstop
    obtain ⟨f, rfl⟩ : ∃ f, fuel = f + 1 := ⟨fuel - 1, by omega⟩
    simp only [List.length_nil, Nat.add_zero] at hstop
    simp [getRepositoriesAux, hstop, List.range_succ]
  | cons p ps ih =>
    intro t fuel page acc log hfuel hgood hstop
    obtain ⟨f, rfl⟩ : ∃ f, fuel = f + 1 := ⟨fuel - 1, by simp at hfuel; omega⟩
    obtain ⟨hp, ht0⟩ := hgood 0 (by simp)
    simp only [List.getElem_cons_zero, Nat.add_zero] at hp ht0
    cases p with
    | nil => exact absurd rfl hp
    | cons item items =>
      have step : getRepositoriesAux t (f + 1) page acc log =
          getRepositoriesAux t f (page + 1) (acc ++ item :: items)
            (log ++ [repoPageUrl page]) := by
        simp [getRepositoriesAux, ht0]
      rw [step, ih t f (page + 1) (acc ++ item :: items) (log ++ [repoPageUrl page])
        (by simp at hfuel ⊢; omega)
        (fun k hk => by
          have hgk := hgood (k + 1) (by simpa using Nat.succ_lt_succ hk)
          simp only [List.getElem_cons_succ] at hgk
          have harith : page + (k + 1) = page + 1 + k := by omega
          rwa [harith] at hgk)
        (by
          have harith : page + 1 + ps.length = page + (ps.length + 1) := by omega
          rw [harith]
          simpa using hstop)]
      simp only [Prod.mk.injEq, FetchOutcome.ok.injEq]
      constructor
      · simp [List.append_assoc]
      · rw [List.append_assoc]
        congr 1
        rw [List.length_cons]
        conv_rhs => rw [List.range_succ_eq_map]
        rw [List.map_cons, List.map_map, List.singleton_append]
        congr 1
        refine List.map_congr_left (fun k hk => ?_)
        simp only [Function.comp_apply]
        congr 1
        omega

/-- C5:  `get_repositories` requests pages (with `per_page=100` in the
URL) starting at page 1 and incrementing, stops at the first page that
returns zero items, and returns the concatenation of all pages in API
order with no sorting or deduplication: over a transport serving the
non-empty pages `pages` followed by an empty page, the result is exactly
`pages.flatten` and exactly `pages.length + 1` page requests are issued,
for pages 1, 2, .... (With one non-empty page this is the claimed
two-request scenario; see the witness.) -/
theorem get_repositories_paginates :
    ∀ (pages : List (List Repo)) (t : Method → String → TransportResult)
      (fuel : Nat),
      pages.length + 1 ≤ fuel →
      (∀ k (hk : k < pages.length),
        pages[k] ≠ [] ∧
        t .get (repoPageUrl (1 + k)) = .resp ⟨200, .arr pages[k]⟩) →
      t .get (repoPageUrl (1 + pages.length)) = .resp ⟨200, .arr []⟩ →
      get_repositories t fuel =
        (.ok pages.flatten,
         (List.range (pages.length + 1)).map (fun k => repoPageUrl (1 + k))) := by
  intro pages t fuel h1 h2 h3
  have h := getRepositoriesAux_servePages pages t fuel 1 [] [] h1 h2 h3
  simpa [get_repositories] using h

theorem get_repositories_paginates_witness :
    get_repositories exampleTransport 2 =
      (.ok exampleRepos, [repoPageUrl 1, repoPageUrl 2]) :=
  (get_repositories_paginates [exampleRepos] exampleTransport 2 (by decide)
    (by
      intro k hk
      have hk0 : k = 0 := by
        simp at hk
        omega
      subst hk0
      show exampleRepos ≠ [] ∧
        exampleTransport .get (repoPageUrl (1 + 0)) = .resp ⟨200, .arr exampleRepos⟩
      exact ⟨by decide, by decide⟩)
    (by decide)).trans (by decide)

/-- C6:  If any page request during the listing yields a non-200
status, the whole listing aborts at that page with a `GitHubError` whose
text is `fetchErrorMsg` — the status code, with the JSON `message` of the body
appended when present — and no repository list is returned (the
accumulator `acc` is dropped; `FetchOutcome.githubError` carries only the
message).  A transport-level failure on any page aborts identically with
`Connection error: ` wrapping the underlying description.  Stated for the
loop at an arbitrary page with an arbitrary accumulator, which covers a
failure on any page of a run. -/
theorem get_repositories_aborts_on_error :
    ∀ (t : Method → String → TransportResult) (fuel page : Nat)
      (acc : List Repo) (log : List String),
      (∀ r, t .get (repoPageUrl page) = .resp r → r.status ≠ 200 →
        getRepositoriesAux t (fuel + 1) page acc log =
          (.githubError (fetchErrorMsg r), log ++ [repoPageUrl page])) ∧
      (∀ status m, fetchErrorMsg ⟨status, .obj (some m)⟩ =
        "Error fetching repositories: " ++ toString status ++ " - " ++ m) ∧
      (∀ e, t .get (repoPageUrl page) = .exn e →
        getRepositoriesAux t (fuel + 1) page acc log =
          (.githubError ("Connection error: " ++ e), log ++ [repoPageUrl page])) := by
  intro t fuel page acc log
  refine ⟨?_, fun status m => rfl, ?_⟩
  · intro r ht hs
    simp [getRepositoriesAux, ht, hs]
  · intro e ht
    simp [getRepositoriesAux, ht]

theorem get_repositories_aborts_on_error_witness :
    getRepositoriesAux failingTransport 1 1 [] [] =
      (.githubError "Error fetching repositories: 401 - Bad credentials",
       [repoPageUrl 1]) :=
  ((get_repositories_aborts_on_error failingTransport 0 1 [] []).1
    ⟨401, .obj (some "Bad credentials")⟩ rfl (by decide)).trans (by decide)

/-- C1:  No delete request is ever issued unless every guard has
passed: if a run of the workflow makes at least one delete call, then the
token was present, the listing succeeded with a non-empty repository
list, the selection parsed to a non-empty index set, and the confirmation
input, stripped of surrounding whitespace, equals the case-sensitive
token `DELETE`.  Contrapositively, a fetch failure, an invalid-format
selection, an empty selection, or any other confirmation input (such as
`"delete"` or `"Delete "`) ends the run with zero delete calls. -/
theorem workflow_no_delete_without_guards :
    ∀ (token : String) (t : Method → String → TransportResult)
      (sel conf : String) (fuel : Nat),
      (Workflow.main token t sel conf fuel).2 ≠ [] →
      token ≠ "" ∧
      ∃ repos, (get_repositories t fuel).1 = .ok repos ∧ repos ≠ [] ∧
        ∃ indices, parse_indices sel repos.length = some indices ∧
          indices ≠ [] ∧ stripChars conf.data = "DELETE".data := by
  intro token t sel conf fuel h
  unfold Workflow.main at h
  split at h
  · exact absurd rfl h
  · rename_i htok
    refine ⟨htok, ?_⟩
    split at h
    · exact absurd rfl h
    · exact absurd rfl h
    · exact absurd rfl h
    · rename_i repos snd heq
      refine ⟨repos, by rw [heq], ?_⟩
      split at h
      · exact absurd rfl h
      · rename_i hrep
        refine ⟨hrep, ?_⟩
        split at h
        · exact absurd rfl h
        · rename_i indices hp
          split at h
          · exact absurd rfl h
          · rename_i hidx
            refine ⟨indices, hp, hidx, ?_⟩
            split at h
            · rename_i hconf
              simpa [confirm_deletion] using hconf
            · exact absurd rfl h

theorem workflow_no_delete_without_guards_witness :
    "tok" ≠ "" ∧
    ∃ repos, (get_repositories exampleTransport 2).1 = .ok repos ∧ repos ≠ [] ∧
      ∃ indices, parse_indices "2,4-6" repos.length = some indices ∧
        indices ≠ [] ∧ stripChars "DELETE".data = "DELETE".data :=
  workflow_no_delete_without_guards "tok" exampleTransport "2,4-6" "DELETE" 2
    (by decide)

/-- C2:  Once the guards have passed (non-empty confirmed selection),
the workflow issues exactly one delete call per selected repository, in
selection order (ascending index); a false result for one item does not
remove any later item from the call list; and the run ends in `done
successes total` where `total` is the number of selected repositories and
`successes` counts the delete calls that returned true.  The final report
line for 4 successes out of 4 is the claimed tally text. -/
theorem workflow_deletes_each_selected_once :
    (∀ (token : String) (t : Method → String → TransportResult)
      (sel conf : String) (fuel : Nat) (repos : List Repo)
      (indices : List Nat),
      token ≠ "" →
      (get_repositories t fuel).1 = .ok repos →
      parse_indices sel repos.length = some indices →
      indices ≠ [] →
      confirm_deletion conf = true →
      Workflow.main token t sel conf fuel =
        (.done ((indices.map (fun i => repos.getD i defaultRepo)).filter
            (fun r => delete_repository t r.owner r.name)).length
            indices.length,
         indices.map (fun i =>
           ((repos.getD i defaultRepo).owner,
            (repos.getD i defaultRepo).name)))) ∧
    operationCompletedLine 4 4 =
      "\nOperation completed. 4/4 repositories deleted successfully." := by
  refine ⟨?_, rfl⟩
  intro token t sel conf fuel repos indices htok hget hp hidx hconf
  have hrep : repos ≠ [] := by
    obtain ⟨i, hi⟩ := List.exists_mem_of_ne_nil indices hidx
    have hlt := parse_indices_bound hp i hi
    intro h0
    rw [h0] at hlt
    simp at hlt
  unfold Workflow.main
  rw [if_neg htok]
  rcases hE : get_repositories t fuel with ⟨o, lg⟩
  rw [hE] at hget
  have ho : o = .ok repos := hget
  subst ho
  dsimp only
  rw [if_neg hrep, hp]
  dsimp only
  rw [if_neg hidx, hconf]
  simp [List.length_map]

theorem workflow_deletes_each_selected_once_witness :
    Workflow.main "tok" exampleTransport "2,4-6" "DELETE" 2 =
      (.done 4 4, [("u", "r2"), ("u", "r4"), ("u", "r5"), ("u", "r6")]) :=
  (workflow_deletes_each_selected_once.1 "tok" exampleTransport "2,4-6" "DELETE" 2
    exampleRepos [1, 3, 4, 5] (by decide) (by decide) (by decide) (by decide)
    (by decide)).trans (by decide)
